import Mathlib

/-
Verification development for the Adalink-ai/n8n gateway integration package.

The repository contains two credential descriptors
(`VercelAiGatewayPlusApi.credentials.ts`, `AdalinkAiGatewayApi.credentials.ts`),
a chat-model node (`LmChatVercelAiGatewayPlus`), and a small types file.
This file gives a shallow embedding of the JavaScript data and the
operations of those files, and proves the behavioural properties stated in
the specification.

Modelling conventions:
  * JavaScript runtime values are embedded as the inductive type `JSVal`.
    JS numbers are modelled as integers (`Int`); fractional and exponent
    JSON number literals are outside the model.
  * JS objects are association lists in insertion order.  Property
    assignment (`o[k] = v`) and object spread are modelled by `jsInsert`
    and `jsMerge`, which replace an existing key in place and append a new
    key at the end, exactly as JS does.
  * `JSON.parse` is embedded as the fuel-based recursive-descent parser
    `jsParse`; `JSON.stringify` as `jsonStringify` (returning `none` for
    `undefined`, which JS serializes to no value).
  * The `authenticate` method mutates its `requestOptions` argument and
    either returns it or throws.  It is embedded as a pure function
    returning the thrown-or-returned result together with the final state
    of the options object.
-/

set_option linter.unusedVariables false

/-- Embedded JavaScript values.  Numbers are modelled as integers. -/
inductive JSVal where
  | undef
  | null
  | bool (b : Bool)
  | num (n : Int)
  | str (s : String)
  | arr (elems : List JSVal)
  | obj (fields : List (String × JSVal))

/-- JS property assignment `m[k] = v` on an association list: an existing
key keeps its position and gets the new value, a fresh key is appended. -/
def jsInsert {α : Type} (m : List (String × α)) (k : String) (v : α) :
    List (String × α) :=
  if m.any (fun q => q.1 == k) then
    m.map (fun q => if q.1 == k then (k, v) else q)
  else m ++ [(k, v)]

/-- JS object spread `\x7b...a, ...b\x7d`: every entry of `b` is assigned into `a`
in order. -/
def jsMerge {α : Type} (a b : List (String × α)) : List (String × α) :=
  b.foldl (fun acc q => jsInsert acc q.1 q.2) a

/-- JS property read: the value at the first occurrence of a key. -/
def jsLookup {α : Type} : List (String × α) → String → Option α
  | [], _ => none
  | q :: rest, k => if q.1 == k then some q.2 else jsLookup rest k

/-- Keys of an association list are pairwise distinct (as every real JS
object satisfies). -/
def distinctKeys {α : Type} : List (String × α) → Bool
  | [] => true
  | q :: rest => !(rest.any (fun p => p.1 == q.1)) && distinctKeys rest

/-- Lower-case hexadecimal digit, used by the string escaper. -/
def hexDigitChar (n : Nat) : Char :=
  if n < 10 then Char.ofNat (48 + n) else Char.ofNat (87 + n)

/-- JSON escaping of a single character, as in `JSON.stringify`. -/
def escapeJsonChar (c : Char) : String :=
  if c == '"' then "\\\""
  else if c == '\\' then "\\\\"
  else if c == '\x08' then "\\b"
  else if c == '\x0c' then "\\f"
  else if c == '\n' then "\\n"
  else if c == '\r' then "\\r"
  else if c == '\t' then "\\t"
  else if c.toNat < 32 then
    "\\u00" ++ String.mk [hexDigitChar (c.toNat / 16), hexDigitChar (c.toNat % 16)]
  else String.mk [c]

/-- JSON quoting of a string, as in `JSON.stringify`. -/
def escapeJsonString (s : String) : String :=
  "\"" ++ s.data.foldl (fun acc c => acc ++ escapeJsonChar c) "" ++ "\""

mutual
/-- `JSON.stringify`.  `undefined` has no serialization (`none`); inside an
array it serializes as `null`, inside an object the entry is dropped. -/
def jsonStringify : JSVal → Option String
  | .undef => none
  | .null => some "null"
  | .bool b => some (if b then "true" else "false")
  | .num n => some (toString n)
  | .str s => some (escapeJsonString s)
  | .arr xs => some ("[" ++ String.intercalate "," (stringifyElems xs) ++ "]")
  | .obj fs => some ("\x7b" ++ String.intercalate "," (stringifyFields fs) ++ "\x7d")

/-- Serializations of array elements (`undefined` becomes `null`). -/
def stringifyElems : List JSVal → List String
  | [] => []
  | x :: xs => ((jsonStringify x).getD "null") :: stringifyElems xs

/-- Serializations of object entries (entries without a serialization are
dropped). -/
def stringifyFields : List (String × JSVal) → List String
  | [] => []
  | (k, v) :: fs =>
    match jsonStringify v with
    | none => stringifyFields fs
    | some s => (escapeJsonString k ++ ":" ++ s) :: stringifyFields fs
end

/-- JSON whitespace skipping. -/
def skipWs (cs : List Char) : List Char :=
  cs.dropWhile (fun c => c == ' ' || c == '\t' || c == '\n' || c == '\r')

/-- Value of a hexadecimal digit. -/
def hexVal (c : Char) : Option Nat :=
  if c.isDigit then some (c.toNat - 48)
  else if 'a' ≤ c ∧ c ≤ 'f' then some (c.toNat - 87)
  else if 'A' ≤ c ∧ c ≤ 'F' then some (c.toNat - 55)
  else none

/-- Body of a JSON string literal (after the opening quote), with the JSON
escape sequences; raw control characters are rejected as in `JSON.parse`. -/
def parseStringBody : Nat → List Char → Option (String × List Char)
  | 0, _ => none
  | _+1, [] => none
  | fuel+1, c :: cs =>
    if c == '"' then some ("", cs)
    else if c == '\\' then
      match cs with
      | [] => none
      | e :: cs2 =>
        let esc : Option (Char × List Char) :=
          if e == '"' then some ('"', cs2)
          else if e == '\\' then some ('\\', cs2)
          else if e == '/' then some ('/', cs2)
          else if e == 'b' then some ('\x08', cs2)
          else if e == 'f' then some ('\x0c', cs2)
          else if e == 'n' then some ('\n', cs2)
          else if e == 'r' then some ('\r', cs2)
          else if e == 't' then some ('\t', cs2)
          else if e == 'u' then
            match cs2 with
            | h1 :: h2 :: h3 :: h4 :: cs3 =>
              match hexVal h1, hexVal h2, hexVal h3, hexVal h4 with
              | some a, some b, some c3, some d =>
                some (Char.ofNat (((a * 16 + b) * 16 + c3) * 16 + d), cs3)
              | _, _, _, _ => none
            | _ => none
          else none
        match esc with
        | some (ch, cs3) =>
          match parseStringBody fuel cs3 with
          | some (s, rest) => some (String.mk (ch :: s.data), rest)
          | none => none
        | none => none
    else if c.toNat < 32 then none
    else
      match parseStringBody fuel cs with
      | some (s, rest) => some (String.mk (c :: s.data), rest)
      | none => none

/-- Digit run to a natural number. -/
def digitsToNat (ds : List Char) : Nat :=
  ds.foldl (fun acc c => acc * 10 + (c.toNat - 48)) 0

/-- JSON number literal.  Only integer literals are modelled: a fraction or
exponent part makes the parse fail, and JSON's leading-zero rule is kept. -/
def parseNumber (cs : List Char) : Option (JSVal × List Char) :=
  let p : Bool × List Char :=
    match cs with
    | '-' :: rest => (true, rest)
    | _ => (false, cs)
  match p.2 with
  | [] => none
  | c :: _ =>
    if !c.isDigit then none
    else
      let ds := p.2.takeWhile Char.isDigit
      let rest := p.2.dropWhile Char.isDigit
      if ds.length > 1 && (ds.headD '0' == '0') then none
      else
        match rest with
        | '.' :: _ => none
        | 'e' :: _ => none
        | 'E' :: _ => none
        | _ =>
          let n : Int := Int.ofNat (digitsToNat ds)
          some (.num (if p.1 then -n else n), rest)

mutual
/-- Recursive-descent `JSON.parse` of one value, fuelled; returns the value
and the unconsumed input. -/
def parseValue : Nat → List Char → Option (JSVal × List Char)
  | 0, _ => none
  | fuel+1, cs =>
    match skipWs cs with
    | [] => none
    | c :: rest =>
      if c == '\x7b' then
        match skipWs rest with
        | '\x7d' :: rest2 => some (.obj [], rest2)
        | rest2 => parseMembers fuel rest2 []
      else if c == '[' then
        match skipWs rest with
        | ']' :: rest2 => some (.arr [], rest2)
        | rest2 => parseElements fuel rest2 []
      else if c == '"' then
        match parseStringBody (rest.length + 1) rest with
        | some (s, rest2) => some (.str s, rest2)
        | none => none
      else if c == 't' then
        match rest with
        | 'r' :: 'u' :: 'e' :: rest2 => some (.bool true, rest2)
        | _ => none
      else if c == 'f' then
        match rest with
        | 'a' :: 'l' :: 's' :: 'e' :: rest2 => some (.bool false, rest2)
        | _ => none
      else if c == 'n' then
        match rest with
        | 'u' :: 'l' :: 'l' :: rest2 => some (.null, rest2)
        | _ => none
      else parseNumber (c :: rest)

/-- Members of a JSON object after the opening brace; duplicate keys
overwrite as `JSON.parse` does. -/
def parseMembers : Nat → List Char → List (String × JSVal) →
    Option (JSVal × List Char)
  | 0, _, _ => none
  | fuel+1, cs, acc =>
    match skipWs cs with
    | '"' :: rest =>
      match parseStringBody (rest.length + 1) rest with
      | some (key, rest2) =>
        match skipWs rest2 with
        | ':' :: rest3 =>
          match parseValue fuel rest3 with
          | some (v, rest4) =>
            match skipWs rest4 with
            | ',' :: rest5 => parseMembers fuel rest5 (jsInsert acc key v)
            | '\x7d' :: rest5 => some (.obj (jsInsert acc key v), rest5)
            | _ => none
          | none => none
        | _ => none
      | none => none
    | _ => none

/-- Elements of a JSON array after the opening bracket. -/
def parseElements : Nat → List Char → List JSVal → Option (JSVal × List Char)
  | 0, _, _ => none
  | fuel+1, cs, acc =>
    match parseValue fuel cs with
    | some (v, rest) =>
      match skipWs rest with
      | ',' :: rest2 => parseElements fuel rest2 (acc ++ [v])
      | ']' :: rest2 => some (.arr (acc ++ [v]), rest2)
      | _ => none
    | none => none
end

/-- `JSON.parse`: parse one value and require only whitespace to remain. -/
def jsParse (s : String) : Option JSVal :=
  match parseValue (s.length + 1) s.data with
  | some (v, rest) => if skipWs rest = [] then some v else none
  | none => none

/-- One step of the `reduce` inside `toRecord`
(`acc[key] = typeof val === 'string' ? val : JSON.stringify(val)`,
skipping `null`/`undefined` values). -/
def toRecordStep (acc : List (String × String)) (kv : String × JSVal) :
    List (String × String) :=
  match kv.2 with
  | .undef => acc
  | .null => acc
  | .str s => jsInsert acc kv.1 s
  | v => jsInsert acc kv.1 ((jsonStringify v).getD "undefined")

namespace VercelAiGatewayPlusApi

/-- The `toRecord` helper of `VercelAiGatewayPlusApi.credentials.ts`
(lines 9-36): normalize an arbitrary value into a string-to-string record
or `undefined`. -/
def toRecord (value : JSVal) : Option (List (String × String)) :=
  match value with
  | .undef => none
  | .null => none
  | _ =>
    match (match value with | .str s => jsParse s | v => some v) with
    | some (.obj fields) =>
      let entries := fields.foldl toRecordStep []
      if entries.length > 0 then some entries else none
    | _ => none

end VercelAiGatewayPlusApi

namespace LmChatVercelAiGatewayPlus

/-- The `toRecord` helper duplicated in the node file (`src/unnamed/part_001`
lines 18-45); its body is identical to the credential file's copy. -/
def toRecord (value : JSVal) : Option (List (String × String)) :=
  match value with
  | .undef => none
  | .null => none
  | _ =>
    match (match value with | .str s => jsParse s | v => some v) with
    | some (.obj fields) =>
      let entries := fields.foldl toRecordStep []
      if entries.length > 0 then some entries else none
    | _ => none

end LmChatVercelAiGatewayPlus

/-- Decrypted credential record as the `authenticate` step receives it
(`ICredentialDataDecryptedObject`); absent fields are `undef`. -/
structure CredentialData where
  apiKey : JSVal
  url : JSVal
  additionalHeaders : JSVal
  additionalQuery : JSVal

/-- The outbound request options mutated by `authenticate`
(`IHttpRequestOptions`): headers, query string, and the fields the step
never touches. -/
structure IHttpRequestOptions where
  url : String
  method : String
  baseURL : Option String
  body : Option JSVal
  headers : Option (List (String × String))
  qs : Option (List (String × String))

/-- Static credential-test request declared by a credential type
(`ICredentialTestRequest.request`). -/
structure CredentialTestRequest where
  baseURL : String
  url : String
  method : String
  headers : List (String × String)
  body : JSVal

namespace VercelAiGatewayPlusApi

/-- The fixed error message of the `authenticate` step. -/
def authErrorMessage : String := "API key is required for Vercel AI Gateway Plus."

/-- The fixed headers built by `authenticate` (`baseHeaders`, lines 92-96). -/
def baseHeaders (apiKey : String) : List (String × String) :=
  [("Authorization", "Bearer " ++ apiKey),
   ("http-referer", "https://n8n.io/"),
   ("x-title", "n8n")]

/-- `VercelAiGatewayPlusApi.authenticate` (lines 82-116).  The JS method
mutates `requestOptions` and returns it, or throws before touching it.
The first component is the thrown-or-returned result, the second the final
state of the options object. -/
def authenticate (credentials : CredentialData)
    (requestOptions : IHttpRequestOptions) :
    Except String IHttpRequestOptions × IHttpRequestOptions :=
  match credentials.apiKey with
  | .str apiKey =>
    if apiKey = "" then (.error authErrorMessage, requestOptions)
    else
      let additionalHeaders := toRecord credentials.additionalHeaders
      let ro1 := { requestOptions with
        headers := some (jsMerge (jsMerge (jsMerge [] (requestOptions.headers.getD []))
          (baseHeaders apiKey)) (additionalHeaders.getD [])) }
      let ro2 :=
        match toRecord credentials.additionalQuery with
        | some additionalQuery =>
          { ro1 with qs := some (jsMerge (jsMerge [] (ro1.qs.getD [])) additionalQuery) }
        | none => ro1
      (.ok ro2, ro2)
  | _ => (.error authErrorMessage, requestOptions)

/-- The static `test` request of `VercelAiGatewayPlusApi` (lines 118-133). -/
def test : CredentialTestRequest :=
  { baseURL := "=\x7b\x7b $credentials.url \x7d\x7d"
    url := "/chat/completions"
    method := "POST"
    headers := [("http-referer", "https://n8n.io/"), ("x-title", "n8n")]
    body := .obj [("model", .str "openai/gpt-4.1-nano"),
                  ("messages", .arr [.obj [("role", .str "user"), ("content", .str "test")]]),
                  ("max_tokens", .num 1)] }

end VercelAiGatewayPlusApi

namespace AdalinkAiGatewayApi

/-- The static `test` request of `AdalinkAiGatewayApi`
(`AdalinkAiGatewayApi.credentials.ts` lines 47-62). -/
def test : CredentialTestRequest :=
  { baseURL := "=\x7b\x7b $credentials.url \x7d\x7d"
    url := "/chat/completions"
    method := "POST"
    headers := [("http-referer", "https://n8n.io/"), ("x-title", "n8n")]
    body := .obj [("model", .str "openai/gpt-4.1-nano"),
                  ("messages", .arr [.obj [("role", .str "user"), ("content", .str "test")]]),
                  ("max_tokens", .num 1)] }

end AdalinkAiGatewayApi

/-- `VercelAiGatewayPlusCredential` from `types/types.ts`: `apiKey` and
`url` are declared strings (`url` may still be absent at runtime, which
line 268 of the node guards with `?? ''`); the override fields hold
arbitrary values. -/
structure VercelAiGatewayPlusCredential where
  apiKey : String
  url : Option String
  additionalHeaders : JSVal
  additionalQuery : JSVal

/-- Modelled from the spec: the host's proxy-agent resolver keyed by base
URL (`getProxyAgent` of `@utils/httpProxyAgent`, not in src/). -/
structure ProxyAgent where
  forBaseUrl : String

/-- Modelled from the spec: the host's proxy-agent resolver keyed by base
URL; opaque except for the URL it was keyed with. -/
def getProxyAgent (baseUrl : String) : ProxyAgent := { forBaseUrl := baseUrl }

/-- `fetchOptions` of the client configuration: the transport dispatcher. -/
structure FetchOptions where
  dispatcher : ProxyAgent

/-- The `ClientOptions` configuration assembled by `supplyData`
(lines 270-297 of the node file). -/
structure ClientOptions where
  baseURL : Option String
  fetchOptions : Option FetchOptions
  defaultHeaders : List (String × String)
  defaultQuery : Option (List (String × String))

/-- The `response_format` model kwarg (`\x7b response_format: \x7b type: ... \x7d \x7d`). -/
structure ModelKwargs where
  response_format_type : String

/-- The user options bag read by `supplyData` (lines 257-266); every field
may be absent at runtime since the collection defaults to `\x7b\x7d`. -/
structure NodeOptions where
  frequencyPenalty : Option Int := none
  maxTokens : Option Int := none
  maxRetries : Option Int := none
  timeout : Option Int := none
  presencePenalty : Option Int := none
  temperature : Option Int := none
  topP : Option Int := none
  responseFormat : Option String := none

/-- The arguments handed to the `ChatOpenAI` constructor (lines 299-314).
The host-bound callback hooks (`callbacks`, `onFailedAttempt`) are opaque
runtime closures outside the data model. -/
structure ChatOpenAIFields where
  apiKey : String
  model : String
  frequencyPenalty : Option Int
  maxTokens : Option Int
  presencePenalty : Option Int
  temperature : Option Int
  topP : Option Int
  responseFormat : Option String
  timeout : Int
  maxRetries : Int
  configuration : ClientOptions
  user : Option String
  modelKwargs : Option ModelKwargs

/-- `(credentials.url ?? '').replace(/\/+$/, '')` (line 268): strip every
trailing slash. -/
def stripTrailingSlashes (s : String) : String :=
  String.mk (List.reverse (List.dropWhile (fun c => c == '/') (List.reverse s.data)))

namespace LmChatVercelAiGatewayPlus

/-- A `name`/`default` entry of the node's `options` collection in the UI
description (`description.properties`). -/
structure NodePropertyOption where
  displayName : String
  name : String
  default : JSVal
  type : String

/-- The `Timeout` option of the node description (lines 221-227): UI
default 360000. -/
def timeoutOption : NodePropertyOption :=
  { displayName := "Timeout", name := "timeout", default := .num 360000, type := "number" }

/-- The `Max Retries` option of the node description (lines 228-234): UI
default 2. -/
def maxRetriesOption : NodePropertyOption :=
  { displayName := "Max Retries", name := "maxRetries", default := .num 2, type := "number" }

/-- `LmChatVercelAiGatewayPlus.supplyData` (lines 249-319), embedded as the
function from its resolved inputs (credential record, `model`, `user` and
`options` parameters) to the `ChatOpenAI` constructor arguments it builds. -/
def supplyData (credentials : VercelAiGatewayPlusCredential) (modelName : String)
    (user : String) (options : NodeOptions) : ChatOpenAIFields :=
  let baseURL := stripTrailingSlashes (credentials.url.getD "")
  let configuration : ClientOptions :=
    { baseURL := if baseURL = "" then none else some baseURL
      fetchOptions :=
        if baseURL = "" then none else some { dispatcher := getProxyAgent baseURL }
      defaultHeaders := [("http-referer", "https://n8n.io/"), ("x-title", "n8n")]
      defaultQuery := none }
  let configuration :=
    match toRecord credentials.additionalHeaders with
    | some additionalHeaders =>
      { configuration with
        defaultHeaders := jsMerge (jsMerge [] configuration.defaultHeaders) additionalHeaders }
    | none => configuration
  let configuration :=
    match toRecord credentials.additionalQuery with
    | some additionalQuery =>
      { configuration with
        defaultQuery :=
          some (jsMerge (jsMerge [] (configuration.defaultQuery.getD [])) additionalQuery) }
    | none => configuration
  { apiKey := credentials.apiKey
    model := modelName
    frequencyPenalty := options.frequencyPenalty
    maxTokens := options.maxTokens
    presencePenalty := options.presencePenalty
    temperature := options.temperature
    topP := options.topP
    responseFormat := options.responseFormat
    timeout := options.timeout.getD 60000
    maxRetries := options.maxRetries.getD 2
    configuration := configuration
    user := if user = "" then none else some user
    modelKwargs :=
      match options.responseFormat with
      | some rf => if rf = "" then none else some { response_format_type := rf }
      | none => none }

end LmChatVercelAiGatewayPlus

/-- Specification-side value conversion, following the specification's
words: entries whose value is `null`/`undefined` are dropped, string values
are kept verbatim, every other value is replaced by its JSON serialization. -/
def specEntryVal : JSVal → Option String
  | .undef => none
  | .null => none
  | .str s => some s
  | v => jsonStringify v

/-- Specification-side entry list: exactly the own entries whose values
survive `specEntryVal`, in order. -/
def specEntries (fs : List (String × JSVal)) : List (String × String) :=
  fs.filterMap (fun kv => (specEntryVal kv.2).map (fun s => (kv.1, s)))

/-- Specification-side restatement of `toRecord`, following the
specification sentence by sentence: absent for `undefined`, `null`, an
unparsable string, a non-object, and when no entry survives; otherwise the
surviving entries. -/
def toRecordSpec (v : JSVal) : Option (List (String × String)) :=
  match v with
  | .undef => none
  | .null => none
  | .str s =>
    match jsParse s with
    | some (.obj fs) => if specEntries fs = [] then none else some (specEntries fs)
    | _ => none
  | .obj fs => if specEntries fs = [] then none else some (specEntries fs)
  | _ => none

/-- A value whose top-level object (if it is one) has pairwise-distinct
keys — true of every value that can exist in a JS runtime. -/
def topLevelDistinct : JSVal → Bool
  | .obj fs => distinctKeys fs
  | _ => true


theorem distinctKeys_cons {α : Type} {q : String × α} {rest : List (String × α)} :
    distinctKeys (q :: rest) = true ↔
      rest.any (fun p => p.1 == q.1) = false ∧ distinctKeys rest = true := by
  simp [distinctKeys]

theorem jsInsert_not_mem {α : Type} (m : List (String × α)) (k : String) (v : α)
    (h : m.any (fun q => q.1 == k) = false) : jsInsert m k v = m ++ [(k, v)] := by
  simp [jsInsert, h]

theorem distinctKeys_map_keyfix {α : Type} (f : String × α → String × α)
    (hf : ∀ q, (f q).1 = q.1) (m : List (String × α)) :
    distinctKeys (m.map f) = distinctKeys m := by
  induction m with
  | nil => rfl
  | cons q rest ih =>
    show ((!(List.map f rest).any fun p => p.1 == (f q).1) && distinctKeys (List.map f rest))
        = ((!rest.any fun p => p.1 == q.1) && distinctKeys rest)
    rw [ih, List.any_map]
    have hcomp : ((fun p => p.1 == (f q).1) ∘ f) = (fun p : String × α => p.1 == q.1) := by
      funext p
      show ((f p).1 == (f q).1) = (p.1 == q.1)
      rw [hf p, hf q]
    rw [hcomp]

theorem distinctKeys_append_single {α : Type} (m : List (String × α)) (k : String) (v : α)
    (hd : distinctKeys m = true) (hm : m.any (fun q => q.1 == k) = false) :
    distinctKeys (m ++ [(k, v)]) = true := by
  induction m with
  | nil => simp [distinctKeys]
  | cons q rest ih =>
    rw [List.cons_append, distinctKeys_cons]
    rw [distinctKeys_cons] at hd
    rw [List.any_cons] at hm
    simp only [Bool.or_eq_false_iff] at hm
    refine ⟨?_, ih hd.2 hm.2⟩
    rw [List.any_append]
    simp only [Bool.or_eq_false_iff]
    refine ⟨hd.1, ?_⟩
    simp only [List.any_cons, List.any_nil, Bool.or_false]
    exact beq_eq_false_iff_ne.mpr fun e => (beq_eq_false_iff_ne.mp hm.1) e.symm

theorem distinctKeys_jsInsert {α : Type} (m : List (String × α)) (k : String) (v : α)
    (h : distinctKeys m = true) : distinctKeys (jsInsert m k v) = true := by
  by_cases hm : m.any (fun q => q.1 == k) = true
  · rw [jsInsert, if_pos hm, distinctKeys_map_keyfix]
    · exact h
    · intro q
      by_cases hq : (q.1 == k) = true
      · simp only [hq, if_pos]
        exact (beq_iff_eq.mp hq).symm
      · simp only [hq]
        simp
  · rw [jsInsert, if_neg hm]
    simp only [Bool.not_eq_true] at hm
    exact distinctKeys_append_single m k v h hm

theorem jsLookup_map_replace_self {α : Type} (m : List (String × α)) (k : String) (v : α)
    (h : m.any (fun q => q.1 == k) = true) :
    jsLookup (m.map (fun q => if q.1 == k then (k, v) else q)) k = some v := by
  induction m with
  | nil => simp at h
  | cons q rest ih =>
    by_cases hq : (q.1 == k) = true
    · simp only [List.map_cons, if_pos hq]
      simp [jsLookup]
    · simp only [List.map_cons, hq, if_neg]
      rw [jsLookup, if_neg (by simp [hq])]
      apply ih
      simp only [List.any_cons, hq, Bool.false_or] at h
      exact h

theorem jsLookup_map_replace_ne {α : Type} (m : List (String × α)) (k k' : String) (v : α)
    (hne : k' ≠ k) :
    jsLookup (m.map (fun q => if q.1 == k then (k, v) else q)) k' = jsLookup m k' := by
  induction m with
  | nil => rfl
  | cons q rest ih =>
    simp only [List.map_cons]
    by_cases hq : (q.1 == k) = true
    · rw [if_pos hq]
      rw [jsLookup, jsLookup, if_neg (by simp; exact fun e => hne e.symm),
        if_neg (by rw [beq_iff_eq.mp hq]; simp; exact fun e => hne e.symm)]
      exact ih
    · rw [if_neg hq]
      rw [jsLookup, jsLookup]
      by_cases hq' : (q.1 == k') = true
      · rw [if_pos hq', if_pos hq']
      · rw [if_neg hq', if_neg hq']
        exact ih

theorem jsLookup_append_single_self {α : Type} (m : List (String × α)) (k : String) (v : α)
    (h : m.any (fun q => q.1 == k) = false) :
    jsLookup (m ++ [(k, v)]) k = some v := by
  induction m with
  | nil => simp [jsLookup]
  | cons q rest ih =>
    simp only [List.any_cons, Bool.or_eq_false_iff] at h
    rw [List.cons_append, jsLookup, if_neg (by simp [h.1])]
    exact ih h.2

theorem jsLookup_append_single_ne {α : Type} (m : List (String × α)) (k k' : String) (v : α)
    (hne : k' ≠ k) :
    jsLookup (m ++ [(k, v)]) k' = jsLookup m k' := by
  induction m with
  | nil =>
    simp only [List.nil_append, jsLookup]
    rw [if_neg (by simp; exact fun e => hne e.symm)]
  | cons q rest ih =>
    rw [List.cons_append, jsLookup, jsLookup]
    by_cases hq : (q.1 == k') = true
    · rw [if_pos hq, if_pos hq]
    · rw [if_neg (by simp [hq]), if_neg (by simp [hq])]
      exact ih

theorem jsLookup_jsInsert_self {α : Type} (m : List (String × α)) (k : String) (v : α) :
    jsLookup (jsInsert m k v) k = some v := by
  by_cases hm : m.any (fun q => q.1 == k) = true
  · rw [jsInsert, if_pos hm]
    exact jsLookup_map_replace_self m k v hm
  · rw [jsInsert, if_neg hm]
    simp only [Bool.not_eq_true] at hm
    exact jsLookup_append_single_self m k v hm

theorem jsLookup_jsInsert_ne {α : Type} (m : List (String × α)) (k k' : String) (v : α)
    (hne : k' ≠ k) : jsLookup (jsInsert m k v) k' = jsLookup m k' := by
  by_cases hm : m.any (fun q => q.1 == k) = true
  · rw [jsInsert, if_pos hm]
    exact jsLookup_map_replace_ne m k k' v hne
  · rw [jsInsert, if_neg hm]
    exact jsLookup_append_single_ne m k k' v hne

theorem jsLookup_jsMerge_not_mem {α : Type} (b : List (String × α)) :
    ∀ a k, b.any (fun q => q.1 == k) = false →
      jsLookup (jsMerge a b) k = jsLookup a k := by
  induction b with
  | nil => intro a k _; rfl
  | cons q rest ih =>
    intro a k h
    simp only [List.any_cons, Bool.or_eq_false_iff] at h
    show jsLookup (jsMerge (jsInsert a q.1 q.2) rest) k = jsLookup a k
    rw [ih (jsInsert a q.1 q.2) k h.2]
    exact jsLookup_jsInsert_ne a q.1 k q.2
      (fun e => absurd (beq_iff_eq.mpr e.symm) (by simp [h.1]))

theorem jsLookup_jsMerge_mem {α : Type} (b : List (String × α)) :
    ∀ a k v, distinctKeys b = true → (k, v) ∈ b →
      jsLookup (jsMerge a b) k = some v := by
  induction b with
  | nil => intro a k v _ hm; simp at hm
  | cons q rest ih =>
    intro a k v hd hm
    rw [distinctKeys_cons] at hd
    rcases List.mem_cons.mp hm with he | hrest
    · subst he
      show jsLookup (jsMerge (jsInsert a k v) rest) k = some v
      rw [jsLookup_jsMerge_not_mem rest (jsInsert a k v) k hd.1]
      exact jsLookup_jsInsert_self a k v
    · show jsLookup (jsMerge (jsInsert a q.1 q.2) rest) k = some v
      exact ih (jsInsert a q.1 q.2) k v hd.2 hrest

theorem jsMerge_eq_append {α : Type} (b : List (String × α)) :
    ∀ a, (∀ p ∈ b, a.any (fun q => q.1 == p.1) = false) → distinctKeys b = true →
      jsMerge a b = a ++ b := by
  induction b with
  | nil => intro a _ _; simp [jsMerge]
  | cons q rest ih =>
    intro a hdisj hd
    rw [distinctKeys_cons] at hd
    show jsMerge (jsInsert a q.1 q.2) rest = a ++ q :: rest
    rw [jsInsert_not_mem a q.1 q.2 (hdisj q (List.mem_cons_self q rest))]
    rw [ih (a ++ [(q.1, q.2)]) ?hdis hd.2]
    · simp
    · intro p hp
      rw [List.any_append]
      simp only [Bool.or_eq_false_iff]
      refine ⟨hdisj p (List.mem_cons_of_mem q hp), ?_⟩
      simp only [List.any_cons, List.any_nil, Bool.or_false]
      have hpk : (p.1 == q.1) = false := by
        have := hd.1
        rw [List.any_eq_false] at this
        have := this p hp
        simpa using this
      exact beq_eq_false_iff_ne.mpr
        fun e => (beq_eq_false_iff_ne.mp hpk) e.symm

theorem jsMerge_nil_left {α : Type} (a : List (String × α)) (h : distinctKeys a = true) :
    jsMerge [] a = a := by
  have := jsMerge_eq_append a [] (fun p _ => rfl) h
  simpa using this

theorem toRecordStep_spec (acc : List (String × String)) (k : String) (v : JSVal) :
    toRecordStep acc (k, v) =
      (match specEntryVal v with
       | none => acc
       | some s => jsInsert acc k s) := by
  cases v <;> rfl

theorem foldl_toRecordStep_eq (fs : List (String × JSVal)) :
    ∀ acc : List (String × String),
      (∀ p ∈ fs, acc.any (fun q => q.1 == p.1) = false) →
      distinctKeys fs = true →
      fs.foldl toRecordStep acc = acc ++ specEntries fs := by
  induction fs with
  | nil =>
    intro acc _ _
    simp [specEntries]
  | cons kv fs ih =>
    intro acc hdisj hnd
    obtain ⟨k, v⟩ := kv
    rw [distinctKeys_cons] at hnd
    rw [List.foldl_cons, toRecordStep_spec]
    cases hsv : specEntryVal v with
    | none =>
      show fs.foldl toRecordStep acc = acc ++ specEntries ((k, v) :: fs)
      rw [ih acc (fun p hp => hdisj p (List.mem_cons_of_mem _ hp)) hnd.2]
      simp [specEntries, List.filterMap_cons, hsv]
    | some s =>
      show fs.foldl toRecordStep (jsInsert acc k s) = acc ++ specEntries ((k, v) :: fs)
      rw [jsInsert_not_mem acc k s (hdisj (k, v) (List.mem_cons_self _ _))]
      rw [ih (acc ++ [(k, s)]) ?hdis hnd.2]
      · simp [specEntries, List.filterMap_cons, hsv]
      case hdis =>
        intro p hp
        rw [List.any_append]
        simp only [Bool.or_eq_false_iff]
        refine ⟨hdisj p (List.mem_cons_of_mem _ hp), ?_⟩
        simp only [List.any_cons, List.any_nil, Bool.or_false]
        have hpk : (p.1 == k) = false := by
          have h1 := hnd.1
          rw [List.any_eq_false] at h1
          simpa using h1 p hp
        exact beq_eq_false_iff_ne.mpr fun e => (beq_eq_false_iff_ne.mp hpk) e.symm

theorem foldl_toRecordStep_distinct (fs : List (String × JSVal)) :
    ∀ acc, distinctKeys acc = true → distinctKeys (fs.foldl toRecordStep acc) = true := by
  induction fs with
  | nil => intro acc h; exact h
  | cons kv fs ih =>
    intro acc h
    rw [List.foldl_cons]
    apply ih
    obtain ⟨k, v⟩ := kv
    cases v with
    | undef => exact h
    | null => exact h
    | str s => exact distinctKeys_jsInsert acc k s h
    | bool b => exact distinctKeys_jsInsert acc k _ h
    | num n => exact distinctKeys_jsInsert acc k _ h
    | arr xs => exact distinctKeys_jsInsert acc k _ h
    | obj ofs => exact distinctKeys_jsInsert acc k _ h

theorem parseMembers_distinct : ∀ (fuel : Nat) (cs : List Char)
    (acc fs : List (String × JSVal)) (rest : List Char),
    distinctKeys acc = true →
    parseMembers fuel cs acc = some (.obj fs, rest) →
    distinctKeys fs = true := by
  intro fuel
  induction fuel with
  | zero =>
    intro cs acc fs rest _ h
    simp [parseMembers] at h
  | succ fuel ih =>
    intro cs acc fs rest hacc h
    rw [parseMembers] at h
    split at h <;> try exact Option.noConfusion h
    split at h <;> try exact Option.noConfusion h
    split at h <;> try exact Option.noConfusion h
    split at h <;> try exact Option.noConfusion h
    split at h <;> try exact Option.noConfusion h
    · exact ih _ _ fs rest (distinctKeys_jsInsert _ _ _ hacc) h
    · simp only [Option.some.injEq, Prod.mk.injEq, JSVal.obj.injEq] at h
      obtain ⟨hfs, _⟩ := h
      subst hfs
      exact distinctKeys_jsInsert _ _ _ hacc

theorem parseElements_not_obj : ∀ (fuel : Nat) (cs : List Char) (acc : List JSVal)
    (fs : List (String × JSVal)) (rest : List Char),
    parseElements fuel cs acc = some (.obj fs, rest) → False := by
  intro fuel
  induction fuel with
  | zero =>
    intro cs acc fs rest h
    simp [parseElements] at h
  | succ fuel ih =>
    intro cs acc fs rest h
    rw [parseElements] at h
    split at h <;> try exact Option.noConfusion h
    split at h <;> try exact Option.noConfusion h
    · exact ih _ _ fs rest h
    · simp at h

theorem parseNumber_not_obj (cs : List Char) (fs : List (String × JSVal)) (rest : List Char)
    (h : parseNumber cs = some (.obj fs, rest)) : False := by
  simp only [parseNumber] at h
  repeat' split at h
  all_goals simp_all

theorem parseValue_obj_distinct (fuel : Nat) (cs : List Char)
    (fs : List (String × JSVal)) (rest : List Char)
    (h : parseValue fuel cs = some (.obj fs, rest)) : distinctKeys fs = true := by
  cases fuel with
  | zero => simp [parseValue] at h
  | succ fuel =>
    rw [parseValue] at h
    split at h <;> try exact Option.noConfusion h
    split at h
    · split at h
      · simp only [Option.some.injEq, Prod.mk.injEq, JSVal.obj.injEq] at h
        obtain ⟨hfs, _⟩ := h
        subst hfs
        rfl
      · exact parseMembers_distinct fuel _ [] fs rest rfl h
    · split at h
      · split at h
        · simp at h
        · exact absurd h (fun hh => parseElements_not_obj fuel _ [] fs rest hh)
      · split at h
        · split at h <;> simp at h
        · split at h
          · split at h <;> simp at h
          · split at h
            · split at h <;> simp at h
            · split at h
              · split at h <;> simp at h
              · exact absurd h (parseNumber_not_obj _ fs rest)

theorem jsParse_obj_distinct (s : String) (fs : List (String × JSVal))
    (h : jsParse s = some (.obj fs)) : distinctKeys fs = true := by
  rw [jsParse] at h
  split at h
  · rename_i v rest heq
    split at h
    · simp only [Option.some.injEq] at h
      subst h
      exact parseValue_obj_distinct _ _ fs rest heq
    · exact Option.noConfusion h
  · exact Option.noConfusion h

theorem toRecord_distinct (v : JSVal) (m : List (String × String))
    (h : VercelAiGatewayPlusApi.toRecord v = some m) : distinctKeys m = true := by
  simp only [VercelAiGatewayPlusApi.toRecord] at h
  split at h <;> try exact Option.noConfusion h
  split at h <;> try exact Option.noConfusion h
  split at h
  · simp only [Option.some.injEq] at h
    subst h
    exact foldl_toRecordStep_distinct _ [] rfl
  · exact Option.noConfusion h

theorem entries_eq_of_distinct (fields : List (String × JSVal))
    (hd : distinctKeys fields = true) :
    (if (fields.foldl toRecordStep []).length > 0
      then some (fields.foldl toRecordStep []) else none)
      = (if specEntries fields = [] then none else some (specEntries fields)) := by
  have he : fields.foldl toRecordStep [] = specEntries fields := by
    simpa using foldl_toRecordStep_eq fields [] (fun p _ => rfl) hd
  rw [he]
  cases hsp : specEntries fields with
  | nil => simp
  | cons a l => simp

theorem toRecord_eq_toRecordSpec (v : JSVal) (h : topLevelDistinct v = true) :
    VercelAiGatewayPlusApi.toRecord v = toRecordSpec v := by
  cases v with
  | undef => rfl
  | null => rfl
  | bool b => rfl
  | num n => rfl
  | arr xs => rfl
  | str s =>
    cases hp : jsParse s with
    | none => simp only [VercelAiGatewayPlusApi.toRecord, toRecordSpec, hp]
    | some u =>
      cases u <;> simp only [VercelAiGatewayPlusApi.toRecord, toRecordSpec, hp]
      case obj fields =>
        exact entries_eq_of_distinct fields (jsParse_obj_distinct s fields hp)
  | obj fs =>
    simp only [VercelAiGatewayPlusApi.toRecord, toRecordSpec]
    exact entries_eq_of_distinct fs h

/-- Claim C1: for every input value (with the top-level-object key
distinctness every real JS value has), the credential file's `toRecord`
agrees with the specification's description `toRecordSpec`: absent for
undefined, null, unparsable strings, non-objects (including arrays), and
objects whose every entry is dropped because its value is null/undefined;
otherwise exactly the surviving own entries, string values verbatim and
every other value replaced by its JSON serialization.  In particular the
string input consisting of key x bound to number 1 yields the record
mapping x to the string 1, the same result as for the parsed object, and
the empty object and an all-null object yield absent. -/
theorem toRecord_matches_spec (v : JSVal) (h : topLevelDistinct v = true) :
    VercelAiGatewayPlusApi.toRecord v = toRecordSpec v ∧
    VercelAiGatewayPlusApi.toRecord (.str "\x7b\"x\":1\x7d") = some [("x", "1")] ∧
    VercelAiGatewayPlusApi.toRecord (.obj [("x", .num 1)]) = some [("x", "1")] ∧
    VercelAiGatewayPlusApi.toRecord (.str "\x7b\"x\":1\x7d")
      = VercelAiGatewayPlusApi.toRecord (.obj [("x", .num 1)]) ∧
    VercelAiGatewayPlusApi.toRecord (.obj []) = none ∧
    VercelAiGatewayPlusApi.toRecord (.obj [("a", .null)]) = none :=
  ⟨toRecord_eq_toRecordSpec v h, rfl, rfl, rfl, rfl, rfl⟩

/-- Witness for C1 at a concrete one-entry object input. -/
theorem toRecord_matches_spec_witness :
    topLevelDistinct (.obj [("x", .num 1)]) = true ∧
    VercelAiGatewayPlusApi.toRecord (.obj [("x", .num 1)])
      = toRecordSpec (.obj [("x", .num 1)]) :=
  ⟨rfl, (toRecord_matches_spec (.obj [("x", .num 1)]) rfl).1⟩

/-- Claim C5: the `toRecord` function of the credential file and the
`toRecord` function of the node file are extensionally equal. -/
theorem toRecord_copies_agree :
    ∀ v, VercelAiGatewayPlusApi.toRecord v = LmChatVercelAiGatewayPlus.toRecord v :=
  fun _ => rfl

/-- Claim C3: when the credential's apiKey is missing, not a string, or the
empty string, authenticate raises the fixed authentication error, and the
request options object is returned in its original, unmutated state. -/
theorem authenticate_missing_key (c : CredentialData) (ro : IHttpRequestOptions)
    (h : (∀ s, c.apiKey ≠ .str s) ∨ c.apiKey = .str "") :
    VercelAiGatewayPlusApi.authenticate c ro
      = (.error VercelAiGatewayPlusApi.authErrorMessage, ro) := by
  obtain ⟨ak, u, ah, aq⟩ := c
  rcases h with h | h
  · cases ak with
    | str s => exact absurd rfl (h s)
    | undef => rfl
    | null => rfl
    | bool b => rfl
    | num n => rfl
    | arr xs => rfl
    | obj fs => rfl
  · have hak : ak = .str "" := h
    subst hak
    rfl

/-- Witness for C3 at the empty-string apiKey. -/
theorem authenticate_missing_key_witness :
    VercelAiGatewayPlusApi.authenticate
        { apiKey := .str "", url := .str "https://ai-gateway.vercel.sh/v1",
          additionalHeaders := .undef, additionalQuery := .undef }
        { url := "/models", method := "GET", baseURL := none, body := none,
          headers := none, qs := none }
      = (.error VercelAiGatewayPlusApi.authErrorMessage,
         { url := "/models", method := "GET", baseURL := none, body := none,
           headers := none, qs := none }) :=
  authenticate_missing_key _ _ (Or.inr rfl)

/-- Claim C4: with a non-empty string apiKey, the headers after
authenticate are the merge, in increasing precedence, of the pre-existing
headers, the fixed bearer/attribution headers, and the normalized
additionalHeaders overrides, so every normalized override entry is read
back from the result even on key collision with a fixed header. -/
theorem authenticate_header_merge (c : CredentialData) (ro : IHttpRequestOptions)
    (k : String) (hk : c.apiKey = .str k) (hne : k ≠ "")
    (hdh : distinctKeys (ro.headers.getD []) = true) :
    ∃ ro2,
      (VercelAiGatewayPlusApi.authenticate c ro).1 = .ok ro2 ∧
      ro2.headers = some (jsMerge (jsMerge (ro.headers.getD [])
          (VercelAiGatewayPlusApi.baseHeaders k))
        ((VercelAiGatewayPlusApi.toRecord c.additionalHeaders).getD [])) ∧
      ∀ p ∈ (VercelAiGatewayPlusApi.toRecord c.additionalHeaders).getD [],
        jsLookup (ro2.headers.getD []) p.1 = some p.2 := by
  simp only [VercelAiGatewayPlusApi.authenticate, hk]
  rw [if_neg hne]
  have hlook : ∀ p ∈ (VercelAiGatewayPlusApi.toRecord c.additionalHeaders).getD [],
      jsLookup (jsMerge (jsMerge (jsMerge [] (ro.headers.getD []))
          (VercelAiGatewayPlusApi.baseHeaders k))
        ((VercelAiGatewayPlusApi.toRecord c.additionalHeaders).getD [])) p.1 = some p.2 := by
    intro p hp
    cases hov : VercelAiGatewayPlusApi.toRecord c.additionalHeaders with
    | none => rw [hov] at hp; simp at hp
    | some ov =>
      rw [hov] at hp
      exact jsLookup_jsMerge_mem ov _ p.1 p.2
        (toRecord_distinct c.additionalHeaders ov hov) hp
  cases hq : VercelAiGatewayPlusApi.toRecord c.additionalQuery with
  | none =>
    refine ⟨_, rfl, ?_, ?_⟩
    · show some (jsMerge (jsMerge (jsMerge [] (ro.headers.getD []))
          (VercelAiGatewayPlusApi.baseHeaders k))
          ((VercelAiGatewayPlusApi.toRecord c.additionalHeaders).getD [])) = _
      rw [jsMerge_nil_left _ hdh]
    · intro p hp
      exact hlook p hp
  | some qv =>
    refine ⟨_, rfl, ?_, ?_⟩
    · show some (jsMerge (jsMerge (jsMerge [] (ro.headers.getD []))
          (VercelAiGatewayPlusApi.baseHeaders k))
          ((VercelAiGatewayPlusApi.toRecord c.additionalHeaders).getD [])) = _
      rw [jsMerge_nil_left _ hdh]
    · intro p hp
      exact hlook p hp

/-- Witness for C4: a blue x-team override lands in the headers next to the
bearer token and the attribution headers. -/
theorem authenticate_header_merge_witness :
    ∃ ro2,
      (VercelAiGatewayPlusApi.authenticate
          { apiKey := .str "sk-1", url := .str "https://ai-gateway.vercel.sh/v1",
            additionalHeaders := .str "\x7b\"x-team\":\"blue\"\x7d",
            additionalQuery := .undef }
          { url := "/chat/completions", method := "POST", baseURL := none,
            body := none, headers := none, qs := none }).1 = .ok ro2 ∧
      ro2.headers = some (jsMerge (jsMerge ((none : Option (List (String × String))).getD [])
          (VercelAiGatewayPlusApi.baseHeaders "sk-1"))
        ((VercelAiGatewayPlusApi.toRecord (.str "\x7b\"x-team\":\"blue\"\x7d")).getD [])) ∧
      ∀ p ∈ (VercelAiGatewayPlusApi.toRecord (.str "\x7b\"x-team\":\"blue\"\x7d")).getD [],
        jsLookup (ro2.headers.getD []) p.1 = some p.2 :=
  authenticate_header_merge _ _ "sk-1" rfl (by decide) (by decide)

/-- Claim C8: with a non-empty string apiKey, authenticate returns the
mutated options value itself; only the headers and query-string fields are
touched, the query string only when the additionalQuery overrides
normalize to a present record, in which case they are merged over the
pre-existing query entries. -/
theorem authenticate_frame (c : CredentialData) (ro : IHttpRequestOptions) (k : String)
    (hk : c.apiKey = .str k) (hne : k ≠ "")
    (hdq : distinctKeys (ro.qs.getD []) = true) :
    ∃ ro2, VercelAiGatewayPlusApi.authenticate c ro = (.ok ro2, ro2) ∧
      ro2.url = ro.url ∧ ro2.method = ro.method ∧ ro2.baseURL = ro.baseURL ∧
      ro2.body = ro.body ∧
      (VercelAiGatewayPlusApi.toRecord c.additionalQuery = none → ro2.qs = ro.qs) ∧
      (∀ q, VercelAiGatewayPlusApi.toRecord c.additionalQuery = some q →
        ro2.qs = some (jsMerge (ro.qs.getD []) q)) := by
  simp only [VercelAiGatewayPlusApi.authenticate, hk]
  rw [if_neg hne]
  cases hq : VercelAiGatewayPlusApi.toRecord c.additionalQuery with
  | none =>
    exact ⟨_, rfl, rfl, rfl, rfl, rfl, fun _ => rfl, fun q hq2 => Option.noConfusion hq2⟩
  | some qv =>
    refine ⟨_, rfl, rfl, rfl, rfl, rfl, fun hq2 => Option.noConfusion hq2, fun q hq2 => ?_⟩
    have hqq : qv = q := by
      injection hq2
    subst hqq
    show some (jsMerge (jsMerge [] (ro.qs.getD [])) qv) = _
    rw [jsMerge_nil_left _ hdq]

/-- Witness for C8 with a team override in the query string. -/
theorem authenticate_frame_witness :
    ∃ ro2,
      VercelAiGatewayPlusApi.authenticate
          { apiKey := .str "sk-1", url := .str "https://ai-gateway.vercel.sh/v1",
            additionalHeaders := .undef,
            additionalQuery := .str "\x7b\"team\":\"blue\"\x7d" }
          { url := "/chat/completions", method := "POST", baseURL := none,
            body := none, headers := none, qs := some [("v", "1")] }
        = (.ok ro2, ro2) ∧
      ro2.url = "/chat/completions" ∧ ro2.method = "POST" ∧
      ro2.baseURL = (none : Option String) ∧ ro2.body = (none : Option JSVal) ∧
      (VercelAiGatewayPlusApi.toRecord (.str "\x7b\"team\":\"blue\"\x7d") = none →
        ro2.qs = some [("v", "1")]) ∧
      (∀ q, VercelAiGatewayPlusApi.toRecord (.str "\x7b\"team\":\"blue\"\x7d") = some q →
        ro2.qs = some (jsMerge ((some [("v", "1")] : Option (List (String × String))).getD []) q)) :=
  authenticate_frame _ _ "sk-1" rfl (by decide) (by decide)

/-- Claim C9: both credential types declare the identical static
connectivity-test request: a POST to /chat/completions under the
credential's base URL, the two attribution headers, and a JSON body with
the gpt-4.1-nano model, a single user message saying test, and max_tokens
one. -/
theorem credential_test_requests_identical :
    VercelAiGatewayPlusApi.test = AdalinkAiGatewayApi.test ∧
    VercelAiGatewayPlusApi.test.method = "POST" ∧
    VercelAiGatewayPlusApi.test.url = "/chat/completions" ∧
    VercelAiGatewayPlusApi.test.baseURL = "=\x7b\x7b $credentials.url \x7d\x7d" ∧
    VercelAiGatewayPlusApi.test.headers
      = [("http-referer", "https://n8n.io/"), ("x-title", "n8n")] ∧
    VercelAiGatewayPlusApi.test.body
      = .obj [("model", .str "openai/gpt-4.1-nano"),
              ("messages", .arr [.obj [("role", .str "user"), ("content", .str "test")]]),
              ("max_tokens", .num 1)] :=
  ⟨rfl, rfl, rfl, rfl, rfl, rfl⟩

/-- Claim C2: in supplyData, selecting the json_object response format
configures the client's model kwargs with a response_format directive of
type json_object; with responseFormat text or unset, no json_object
directive is passed (text yields a text-typed response_format and unset
yields no model kwargs at all). -/
theorem supplyData_json_mode (credentials : VercelAiGatewayPlusCredential)
    (modelName user : String) (options : NodeOptions) :
    (options.responseFormat = some "json_object" →
      (LmChatVercelAiGatewayPlus.supplyData credentials modelName user options).modelKwargs
        = some { response_format_type := "json_object" }) ∧
    (options.responseFormat = some "text" →
      (LmChatVercelAiGatewayPlus.supplyData credentials modelName user options).modelKwargs
        ≠ some { response_format_type := "json_object" }) ∧
    (options.responseFormat = none →
      (LmChatVercelAiGatewayPlus.supplyData credentials modelName user options).modelKwargs
        = none) := by
  refine ⟨fun h => ?_, fun h => ?_, fun h => ?_⟩ <;>
    simp [LmChatVercelAiGatewayPlus.supplyData, h, ModelKwargs.mk.injEq]

/-- Witness for C2 at the json_object option. -/
theorem supplyData_json_mode_witness :
    (some "json_object" : Option String) = some "json_object" ∧
    (LmChatVercelAiGatewayPlus.supplyData
        { apiKey := "sk-1", url := some "https://ai-gateway.vercel.sh/v1",
          additionalHeaders := .undef, additionalQuery := .undef }
        "openai/gpt-4o" "" { responseFormat := some "json_object" }).modelKwargs
      = some { response_format_type := "json_object" } :=
  ⟨rfl, (supplyData_json_mode
      { apiKey := "sk-1", url := some "https://ai-gateway.vercel.sh/v1",
        additionalHeaders := .undef, additionalQuery := .undef }
      "openai/gpt-4o" "" { responseFormat := some "json_object" }).1 rfl⟩

/-- Claim C6: the constructed client receives the user timeout when
present and 60000 ms otherwise, and the user maxRetries when present and 2
otherwise, even though the node's UI property list declares a default of
360000 for the timeout field. -/
theorem supplyData_runtime_defaults (credentials : VercelAiGatewayPlusCredential)
    (modelName user : String) (options : NodeOptions) :
    (LmChatVercelAiGatewayPlus.supplyData credentials modelName user options).timeout
        = options.timeout.getD 60000 ∧
    (LmChatVercelAiGatewayPlus.supplyData credentials modelName user options).maxRetries
        = options.maxRetries.getD 2 ∧
    LmChatVercelAiGatewayPlus.timeoutOption.name = "timeout" ∧
    LmChatVercelAiGatewayPlus.timeoutOption.default = .num 360000 ∧
    LmChatVercelAiGatewayPlus.maxRetriesOption.default = .num 2 := by
  refine ⟨?_, ?_, rfl, rfl, rfl⟩ <;> simp [LmChatVercelAiGatewayPlus.supplyData]

/-- Claim C7: the built configuration's base URL is the credential url with
all trailing slashes stripped (absent when that is empty), and the
proxy-aware dispatcher is attached exactly when the stripped base URL is
non-empty; stripping turns https x v1 slash into https x v1. -/
theorem supplyData_baseURL_dispatcher (credentials : VercelAiGatewayPlusCredential)
    (modelName user : String) (options : NodeOptions) :
    ((LmChatVercelAiGatewayPlus.supplyData credentials modelName user
        options).configuration.baseURL
      = (if stripTrailingSlashes (credentials.url.getD "") = "" then none
         else some (stripTrailingSlashes (credentials.url.getD "")))) ∧
    ((LmChatVercelAiGatewayPlus.supplyData credentials modelName user
        options).configuration.fetchOptions
      = (if stripTrailingSlashes (credentials.url.getD "") = "" then none
         else some { dispatcher :=
            getProxyAgent (stripTrailingSlashes (credentials.url.getD "")) })) ∧
    stripTrailingSlashes "https://x/v1/" = "https://x/v1" := by
  cases h1 : LmChatVercelAiGatewayPlus.toRecord credentials.additionalHeaders <;>
    cases h2 : LmChatVercelAiGatewayPlus.toRecord credentials.additionalQuery <;>
    refine ⟨?_, ?_, by decide⟩ <;>
    simp [LmChatVercelAiGatewayPlus.supplyData, h1, h2]

/-- Claim C10: when the credential url is missing, empty, or consists only
of slash characters, the built configuration's base URL is absent (never
the empty string) and no fetch-options dispatcher is attached. -/
theorem supplyData_absent_baseURL (credentials : VercelAiGatewayPlusCredential)
    (modelName user : String) (options : NodeOptions)
    (h : ∀ c ∈ (credentials.url.getD "").data, c = '/') :
    (LmChatVercelAiGatewayPlus.supplyData credentials modelName user
        options).configuration.baseURL = none ∧
    (LmChatVercelAiGatewayPlus.supplyData credentials modelName user
        options).configuration.fetchOptions = none := by
  have hb : stripTrailingSlashes (credentials.url.getD "") = "" := by
    rw [stripTrailingSlashes]
    have hdrop : ((credentials.url.getD "").data.reverse).dropWhile (fun c => c == '/') = [] := by
      rw [List.dropWhile_eq_nil_iff]
      intro x hx
      have hm := h x (List.mem_reverse.mp hx)
      simp [hm]
    rw [hdrop]
    rfl
  cases h1 : LmChatVercelAiGatewayPlus.toRecord credentials.additionalHeaders <;>
    cases h2 : LmChatVercelAiGatewayPlus.toRecord credentials.additionalQuery <;>
    constructor <;>
    simp [LmChatVercelAiGatewayPlus.supplyData, h1, h2, hb]

/-- Witness for C10 at a url of three slashes. -/
theorem supplyData_absent_baseURL_witness :
    (∀ c ∈ ((some "///" : Option String).getD "").data, c = '/') ∧
    ((LmChatVercelAiGatewayPlus.supplyData
        { apiKey := "sk-1", url := some "///",
          additionalHeaders := .undef, additionalQuery := .undef }
        "openai/gpt-4o" "" {}).configuration.baseURL = none ∧
     (LmChatVercelAiGatewayPlus.supplyData
        { apiKey := "sk-1", url := some "///",
          additionalHeaders := .undef, additionalQuery := .undef }
        "openai/gpt-4o" "" {}).configuration.fetchOptions = none) :=
  ⟨by decide, supplyData_absent_baseURL
      { apiKey := "sk-1", url := some "///",
        additionalHeaders := .undef, additionalQuery := .undef }
      "openai/gpt-4o" "" {} (by decide)⟩
